import Mathlib

/-!
Shallow embedding of the result-encoding layer of pgwire
(`src/api/results.rs`): `Tag`, `FieldFormat`, `FieldInfo`,
`DataRowEncoder` and their conversions to wire payload shapes.

Rust mutable state is embedded by explicit state passing: a method on
`&mut self` returning `PgWireResult<()>` becomes a Lean function from the
state to a pair of the new state and an `Except` result.  Byte buffers
(`BytesMut` / `Bytes`) are lists of naturals; capacity hints
(`Vec::with_capacity`, `BytesMut::with_capacity`) are not observable and
are dropped.  The externally supplied serialization capability
(`ToSql` / `ToSqlText`) receives a mutable buffer and may both mutate it
and fail, so it is embedded as a function from the buffer contents to the
new buffer contents together with an `Except` outcome.
-/

/-- Byte buffer contents (`bytes::BytesMut` / `bytes::Bytes`). -/
abbrev Bytes := List Nat

/-- Modelled from the spec: `PgWireError` lives in the `error` module,
which is not part of the given source; only "the error type used here"
is relevant, so it is embedded as an opaque message. -/
abbrev PgWireError := String

/-- `PgWireResult<T>` from the `error` module: a result with `PgWireError`. -/
abbrev PgWireResult (A : Type) := Except PgWireError A

/-- `postgres_types::IsNull`: whether a serialized value was SQL NULL. -/
inductive IsNull where
  | Yes : IsNull
  | No : IsNull
deriving DecidableEq, Repr

/-- `postgres_types::Type`, the semantic SQL type.  External crate; per the
spec it is "a semantic SQL type carrying a wire type identifier", so only
its `oid()` accessor is embedded. -/
structure PgType where
  oid : Nat
deriving DecidableEq, Repr

/-- A value together with its two serialization capabilities
(`T: ToSql + ToSqlText`).  Each capability takes the declared type and the
current scratch-buffer contents and returns the new buffer contents plus
either the NULL flag or an error: this embeds a Rust method that writes
into a `&mut BytesMut` and returns `Result<IsNull, ...>`, where the buffer
may have been mutated even when the method fails. -/
structure SqlValue where
  to_sql_text : PgType → Bytes → Bytes × PgWireResult IsNull
  to_sql : PgType → Bytes → Bytes × PgWireResult IsNull

/-- Modelled from the spec: `FORMAT_CODE_TEXT` is declared in
`messages::data`, which is not part of the given source; the spec fixes
"Format code constants: Text = 0". -/
def FORMAT_CODE_TEXT : Int := 0

/-- Modelled from the spec: `FORMAT_CODE_BINARY` is declared in
`messages::data`, which is not part of the given source; the spec fixes
"Format code constants: ... Binary = 1". -/
def FORMAT_CODE_BINARY : Int := 1

/-- `FieldFormat`: the two wire encodings. -/
inductive FieldFormat where
  | Text : FieldFormat
  | Binary : FieldFormat
deriving DecidableEq, Repr

/-- `FieldFormat::value`: the wire integer code of a format. -/
def FieldFormat.value : FieldFormat → Int
  | .Text => FORMAT_CODE_TEXT
  | .Binary => FORMAT_CODE_BINARY

/-- `FieldInfo`: static metadata for one result column. -/
structure FieldInfo where
  name : String
  table_id : Option Int
  column_id : Option Int
  datatype : PgType
  format : FieldFormat

/-- Modelled from the spec: `FieldDescription` is declared in
`messages::data`, which is not part of the given source; the spec gives the
column-description entry as the tuple
(name, table_id, column_id, type_oid, type_size, type_modifier,
format_code), and `FieldDescription::new` takes them in that order. -/
structure FieldDescription where
  name : String
  table_id : Int
  column_id : Int
  type_id : Nat
  type_size : Int
  type_modifier : Int
  format_code : Int
deriving DecidableEq, Repr

/-- `impl From<FieldInfo> for FieldDescription`. -/
def fieldInfoToFieldDescription (fi : FieldInfo) : FieldDescription :=
  { name := fi.name
    table_id := fi.table_id.getD 0
    column_id := fi.column_id.getD 0
    type_id := fi.datatype.oid
    type_size := 0
    type_modifier := 0
    format_code := fi.format.value }

/-- `Tag`: textual command-completion status. -/
structure Tag where
  command : String
  rows : Option Nat
deriving DecidableEq, Repr

/-- `Tag::new_for_query`. -/
def Tag.new_for_query (rows : Nat) : Tag :=
  { command := "SELECT", rows := some rows }

/-- `Tag::new_for_execution`. -/
def Tag.new_for_execution (command : String) (rows : Option Nat) : Tag :=
  { command := command, rows := rows }

/-- Modelled from the spec: `CommandComplete` is declared in
`messages::response`, which is not part of the given source; the spec says
the completion payload is a single text string. -/
structure CommandComplete where
  tag : String
deriving DecidableEq, Repr

/-- `impl From<Tag> for CommandComplete`. -/
def tagToCommandComplete (t : Tag) : CommandComplete :=
  match t.rows with
  | some rows => { tag := t.command ++ " " ++ toString rows }
  | none => { tag := t.command }

/-- Modelled from the spec: `DataRow` is declared in `messages::data`,
which is not part of the given source; the spec gives the row entry as an
ordered list of fields, each absent (NULL) or a byte buffer. -/
structure DataRow where
  fields : List (Option Bytes)
deriving DecidableEq, Repr

/-- `DataRowEncoder`: the single-row builder with its reusable scratch
buffer (`field_buffer`). -/
structure DataRowEncoder where
  buffer : DataRow
  field_buffer : Bytes

/-- `DataRowEncoder::new(ncols)`.  `ncols` only sizes the capacity of the
row vector, which is not observable. -/
def DataRowEncoder.new (_ncols : Nat) : DataRowEncoder :=
  { buffer := { fields := [] }, field_buffer := [] }

/-- `DataRowEncoder::encode_field(value, data_type, format)`.  Dispatches
to `to_sql_text` when `format == FORMAT_CODE_TEXT` and to `to_sql`
otherwise; the `?` on the capability call propagates its error before the
push and before the clear, leaving the (possibly mutated) scratch buffer
in place; otherwise a non-NULL result moves the whole scratch buffer into
the row (`split().freeze()`) and a NULL result pushes an absent field, and
the scratch buffer ends empty either way. -/
def DataRowEncoder.encode_field (enc : DataRowEncoder) (value : SqlValue)
    (data_type : PgType) (format : Int) : DataRowEncoder × PgWireResult Unit :=
  match (if format = FORMAT_CODE_TEXT
         then value.to_sql_text data_type enc.field_buffer
         else value.to_sql data_type enc.field_buffer) with
  | (buf, Except.error e) =>
      ({ enc with field_buffer := buf }, Except.error e)
  | (buf, Except.ok IsNull.No) =>
      ({ buffer := { fields := enc.buffer.fields ++ [some buf] },
         field_buffer := [] }, Except.ok ())
  | (_, Except.ok IsNull.Yes) =>
      ({ buffer := { fields := enc.buffer.fields ++ [none] },
         field_buffer := [] }, Except.ok ())

/-- `DataRowEncoder::finish`. -/
def DataRowEncoder.finish (enc : DataRowEncoder) : PgWireResult DataRow :=
  Except.ok enc.buffer

/-- One `encode_field` call site: the value, the declared type and the
requested format code. -/
abbrev EncodeCall := SqlValue × PgType × Int

/-- A caller loop performing one `encode_field` per call descriptor,
stopping at the first error (the `?` discipline of a Rust caller). -/
def encodeAll (enc : DataRowEncoder) :
    List EncodeCall → DataRowEncoder × PgWireResult Unit
  | [] => (enc, Except.ok ())
  | c :: cs =>
      match enc.encode_field c.1 c.2.1 c.2.2 with
      | (enc2, Except.ok _) => encodeAll enc2 cs
      | (enc2, Except.error e) => (enc2, Except.error e)

/-- The field one `encode_field` call produces when started on an empty
scratch buffer: the capability selected by the call's format code is run
on the empty buffer, yielding an absent field on NULL, a present byte
buffer otherwise, or the capability's error. -/
def fieldOf (c : EncodeCall) : PgWireResult (Option Bytes) :=
  match (if c.2.2 = FORMAT_CODE_TEXT
         then c.1.to_sql_text c.2.1 []
         else c.1.to_sql c.2.1 []) with
  | (_, Except.error e) => Except.error e
  | (buf, Except.ok IsNull.No) => Except.ok (some buf)
  | (_, Except.ok IsNull.Yes) => Except.ok none

/-- The fields a sequence of calls produces, or the first error. -/
def fieldsOf : List EncodeCall → PgWireResult (List (Option Bytes))
  | [] => Except.ok []
  | c :: cs =>
      match fieldOf c with
      | Except.error e => Except.error e
      | Except.ok b =>
          match fieldsOf cs with
          | Except.error e => Except.error e
          | Except.ok bs => Except.ok (b :: bs)

/-- Encoding one field through the text serialization capability alone:
the comparison target for the format dispatch of `encode_field`. -/
def DataRowEncoder.textEncoded (enc : DataRowEncoder) (value : SqlValue)
    (data_type : PgType) : DataRowEncoder × PgWireResult Unit :=
  match value.to_sql_text data_type enc.field_buffer with
  | (buf, Except.error e) =>
      ({ enc with field_buffer := buf }, Except.error e)
  | (buf, Except.ok IsNull.No) =>
      ({ buffer := { fields := enc.buffer.fields ++ [some buf] },
         field_buffer := [] }, Except.ok ())
  | (_, Except.ok IsNull.Yes) =>
      ({ buffer := { fields := enc.buffer.fields ++ [none] },
         field_buffer := [] }, Except.ok ())

/-- Encoding one field through the binary serialization capability alone:
the comparison target for the format dispatch of `encode_field`. -/
def DataRowEncoder.binaryEncoded (enc : DataRowEncoder) (value : SqlValue)
    (data_type : PgType) : DataRowEncoder × PgWireResult Unit :=
  match value.to_sql data_type enc.field_buffer with
  | (buf, Except.error e) =>
      ({ enc with field_buffer := buf }, Except.error e)
  | (buf, Except.ok IsNull.No) =>
      ({ buffer := { fields := enc.buffer.fields ++ [some buf] },
         field_buffer := [] }, Except.ok ())
  | (_, Except.ok IsNull.Yes) =>
      ({ buffer := { fields := enc.buffer.fields ++ [none] },
         field_buffer := [] }, Except.ok ())

/-- A concrete semantic type for witnesses: INT4, oid 23. -/
def pgTypeInt4 : PgType := { oid := 23 }

/-- A value whose capabilities report SQL NULL in both formats, writing
nothing. -/
def nullValue : SqlValue :=
  { to_sql_text := fun _ buf => (buf, Except.ok IsNull.Yes)
    to_sql := fun _ buf => (buf, Except.ok IsNull.Yes) }

/-- A non-null value appending one given byte in either format. -/
def valueOfByte (b : Nat) : SqlValue :=
  { to_sql_text := fun _ buf => (buf ++ [b], Except.ok IsNull.No)
    to_sql := fun _ buf => (buf ++ [b], Except.ok IsNull.No) }

/-- A capability that writes one byte into the scratch buffer and then
fails: legal behavior for an external `ToSql` implementation, which gets
the buffer by mutable reference before returning its error. -/
def dirtyFailValue : SqlValue :=
  { to_sql_text := fun _ buf => (buf ++ [7], Except.error "boom")
    to_sql := fun _ buf => (buf ++ [7], Except.error "boom") }

/-- Two concrete successful calls: one non-null text field, one binary
NULL field. -/
def demoCalls : List EncodeCall :=
  [(valueOfByte 3, pgTypeInt4, 0), (nullValue, pgTypeInt4, 1)]

/-- The fields `demoCalls` produces. -/
def demoFields : List (Option Bytes) := [some [3], none]

/-! ## Helper lemmas -/

/-- One `encode_field` call started on an empty scratch buffer appends
exactly the field `fieldOf` describes and succeeds. -/
theorem encode_field_of_fieldOf (enc : DataRowEncoder) (c : EncodeCall)
    (b : Option Bytes) (hbuf : enc.field_buffer = [])
    (h : fieldOf c = Except.ok b) :
    enc.encode_field c.1 c.2.1 c.2.2 =
      ({ buffer := { fields := enc.buffer.fields ++ [b] },
         field_buffer := [] }, Except.ok ()) := by
  unfold DataRowEncoder.encode_field
  unfold fieldOf at h
  rw [hbuf]
  rcases hc : (if c.2.2 = FORMAT_CODE_TEXT
               then c.1.to_sql_text c.2.1 []
               else c.1.to_sql c.2.1 []) with ⟨buf, r⟩
  rw [hc] at h
  cases r with
  | error e => simp at h
  | ok n =>
    cases n with
    | Yes => simp_all
    | No => simp_all

/-- Running a caller loop of successful encodes from any encoder whose
scratch buffer is empty appends exactly the described fields. -/
theorem encodeAll_ok (cs : List EncodeCall) (flds : List (Option Bytes))
    (h : fieldsOf cs = Except.ok flds) (enc : DataRowEncoder)
    (hbuf : enc.field_buffer = []) :
    encodeAll enc cs =
      ({ buffer := { fields := enc.buffer.fields ++ flds },
         field_buffer := [] }, Except.ok ()) := by
  induction cs generalizing flds enc with
  | nil =>
    unfold fieldsOf at h
    simp only [Except.ok.injEq] at h
    subst h
    obtain ⟨⟨fs⟩, fb⟩ := enc
    simp only [DataRowEncoder.field_buffer] at hbuf
    subst hbuf
    simp [encodeAll]
  | cons c cs ih =>
    unfold fieldsOf at h
    rcases hc : fieldOf c with e | b <;> rw [hc] at h
    · simp at h
    · rcases hcs : fieldsOf cs with e | bs <;> rw [hcs] at h
      · simp at h
      · simp only [Except.ok.injEq] at h
        subst h
        unfold encodeAll
        rw [encode_field_of_fieldOf enc c b hbuf hc]
        show encodeAll
          { buffer := { fields := enc.buffer.fields ++ [b] },
            field_buffer := [] } cs = _
        rw [ih bs hcs
          { buffer := { fields := enc.buffer.fields ++ [b] },
            field_buffer := [] } rfl]
        simp

/-- `fieldsOf` preserves the number of calls. -/
theorem fieldsOf_length (cs : List EncodeCall) (flds : List (Option Bytes))
    (h : fieldsOf cs = Except.ok flds) : flds.length = cs.length := by
  induction cs generalizing flds with
  | nil =>
    unfold fieldsOf at h
    simp only [Except.ok.injEq] at h
    subst h
    rfl
  | cons c cs ih =>
    unfold fieldsOf at h
    rcases hc : fieldOf c with e | b <;> rw [hc] at h
    · simp at h
    · rcases hcs : fieldsOf cs with e | bs <;> rw [hcs] at h
      · simp at h
      · simp only [Except.ok.injEq] at h
        subst h
        simp [ih bs hcs]

/-- Positionally, the i-th produced field comes from the i-th call. -/
theorem fieldsOf_get (cs : List EncodeCall) (flds : List (Option Bytes))
    (h : fieldsOf cs = Except.ok flds) (i : Nat) (hi : i < cs.length)
    (hi2 : i < flds.length) :
    fieldOf (cs.get ⟨i, hi⟩) = Except.ok (flds.get ⟨i, hi2⟩) := by
  induction cs generalizing flds i with
  | nil => simp at hi
  | cons c cs ih =>
    unfold fieldsOf at h
    rcases hc : fieldOf c with e | b <;> rw [hc] at h
    · simp at h
    · rcases hcs : fieldsOf cs with e | bs <;> rw [hcs] at h
      · simp at h
      · simp only [Except.ok.injEq] at h
        subst h
        cases i with
        | zero => simpa using hc
        | succ j =>
          have hj : j < cs.length := by simpa using hi
          have hj2 : j < bs.length := by simpa using hi2
          simpa using ih bs hcs j hj hj2

/-! ## Claim theorems -/

/-- C1 (amended): after every `encode_field` call that returns `Ok` —
field appended as bytes or as NULL — the reusable scratch buffer is
empty, so no bytes written during a successful call can appear in a later
field's buffer.  (The original claim also covered the error outcome; see
the counterexample.) -/
theorem C1_scratch_empty_after_ok (enc : DataRowEncoder) (v : SqlValue)
    (ty : PgType) (f : Int)
    (h : (enc.encode_field v ty f).2 = Except.ok ()) :
    (enc.encode_field v ty f).1.field_buffer = [] := by
  unfold DataRowEncoder.encode_field at h ⊢
  rcases hc : (if f = FORMAT_CODE_TEXT
               then v.to_sql_text ty enc.field_buffer
               else v.to_sql ty enc.field_buffer) with ⟨buf, r⟩
  rw [hc] at h
  cases r with
  | error e => simp at h
  | ok n => cases n <;> rfl

/-- C1 witness: a concrete successful call leaves the scratch buffer
empty. -/
theorem C1_scratch_empty_after_ok_witness :
    ((DataRowEncoder.new 1).encode_field (valueOfByte 9) pgTypeInt4 0).2 =
      Except.ok () ∧
    ((DataRowEncoder.new 1).encode_field (valueOfByte 9) pgTypeInt4 0).1.field_buffer =
      [] :=
  ⟨rfl,
   C1_scratch_empty_after_ok (DataRowEncoder.new 1) (valueOfByte 9) pgTypeInt4 0 rfl⟩

/-- C1 counterexample: when the serialization capability writes a byte
into the scratch buffer and then fails, `encode_field` propagates the
error before the clear, so the scratch buffer is NOT empty after the
call — refuting the claim's "regardless of outcome" part. -/
theorem C1_counterexample_error_keeps_bytes :
    ((DataRowEncoder.new 1).encode_field dirtyFailValue pgTypeInt4 0).2 =
      Except.error "boom" ∧
    ((DataRowEncoder.new 1).encode_field dirtyFailValue pgTypeInt4 0).1.field_buffer =
      [7] ∧
    ([7] : Bytes) ≠ [] :=
  ⟨rfl, rfl, by decide⟩

/-- C2: when the serialization capability fails, `encode_field` returns
that error and appends nothing: the row under construction is unchanged. -/
theorem C2_error_appends_nothing (enc : DataRowEncoder) (v : SqlValue)
    (ty : PgType) (f : Int) (e : PgWireError)
    (h : (enc.encode_field v ty f).2 = Except.error e) :
    (enc.encode_field v ty f).1.buffer = enc.buffer := by
  unfold DataRowEncoder.encode_field at h ⊢
  rcases hc : (if f = FORMAT_CODE_TEXT
               then v.to_sql_text ty enc.field_buffer
               else v.to_sql ty enc.field_buffer) with ⟨buf, r⟩
  rw [hc] at h
  cases r with
  | error e2 => rfl
  | ok n => cases n <;> simp at h

/-- C2 witness: a concrete failing call leaves the row's field list as it
was. -/
theorem C2_error_appends_nothing_witness :
    ((DataRowEncoder.new 1).encode_field dirtyFailValue pgTypeInt4 1).2 =
      Except.error "boom" ∧
    ((DataRowEncoder.new 1).encode_field dirtyFailValue pgTypeInt4 1).1.buffer =
      (DataRowEncoder.new 1).buffer :=
  ⟨rfl,
   C2_error_appends_nothing (DataRowEncoder.new 1) dirtyFailValue pgTypeInt4 1
     "boom" rfl⟩

/-- C3: a fresh encoder, N successful `encode_field` calls, then
`finish`: the row has exactly N fields, and the field at position i is
the one produced by the i-th call (encode order preserved). -/
theorem C3_row_fields_in_encode_order (cs : List EncodeCall)
    (flds : List (Option Bytes)) (h : fieldsOf cs = Except.ok flds) :
    (encodeAll (DataRowEncoder.new cs.length) cs).2 = Except.ok () ∧
    (encodeAll (DataRowEncoder.new cs.length) cs).1.finish =
      Except.ok (DataRow.mk flds) ∧
    flds.length = cs.length ∧
    ∀ i : Nat, ∀ hi : i < cs.length, ∀ hi2 : i < flds.length,
      fieldOf (cs.get ⟨i, hi⟩) = Except.ok (flds.get ⟨i, hi2⟩) := by
  have he := encodeAll_ok cs flds h (DataRowEncoder.new cs.length) rfl
  exact ⟨by rw [he], by rw [he]; rfl, fieldsOf_length cs flds h,
    fieldsOf_get cs flds h⟩

/-- C3 witness: two concrete successful encodes produce a two-field row
in order. -/
theorem C3_row_fields_in_encode_order_witness :
    fieldsOf demoCalls = Except.ok demoFields ∧
    (encodeAll (DataRowEncoder.new demoCalls.length) demoCalls).1.finish =
      Except.ok (DataRow.mk demoFields) :=
  ⟨rfl, (C3_row_fields_in_encode_order demoCalls demoFields rfl).2.1⟩

/-- C4: when the serialization capability selected by the requested
format reports SQL NULL, `encode_field` appends an absent field marker
(no bytes) and succeeds, whatever the format code is. -/
theorem C4_null_appends_absent (enc : DataRowEncoder) (v : SqlValue)
    (ty : PgType) (f : Int)
    (h : (if f = FORMAT_CODE_TEXT then v.to_sql_text ty enc.field_buffer
          else v.to_sql ty enc.field_buffer).2 = Except.ok IsNull.Yes) :
    enc.encode_field v ty f =
      ({ buffer := { fields := enc.buffer.fields ++ [none] },
         field_buffer := [] }, Except.ok ()) := by
  unfold DataRowEncoder.encode_field
  rcases hc : (if f = FORMAT_CODE_TEXT
               then v.to_sql_text ty enc.field_buffer
               else v.to_sql ty enc.field_buffer) with ⟨buf, r⟩
  rw [hc] at h
  simp only at h
  subst h
  rfl

/-- C4 witness: a NULL value yields an absent field in the text format
(code 0) and in the binary format (code 1). -/
theorem C4_null_appends_absent_witness :
    (DataRowEncoder.new 1).encode_field nullValue pgTypeInt4 0 =
      ({ buffer := { fields := [none] }, field_buffer := [] },
       Except.ok ()) ∧
    (DataRowEncoder.new 1).encode_field nullValue pgTypeInt4 1 =
      ({ buffer := { fields := [none] }, field_buffer := [] },
       Except.ok ()) :=
  ⟨C4_null_appends_absent (DataRowEncoder.new 1) nullValue pgTypeInt4 0 rfl,
   C4_null_appends_absent (DataRowEncoder.new 1) nullValue pgTypeInt4 1 rfl⟩

/-- C5: converting a `FieldInfo` to a column-description entry yields
(name, table_id, column_id, type oid, 0, 0, format code), with an absent
table or column identifier replaced by 0 and a present one passed through
unchanged, and type_size and type_modifier always 0. -/
theorem C5_field_description_defaults (nm : String) (t : Int) (c : Int)
    (ty : PgType) (fmt : FieldFormat) :
    fieldInfoToFieldDescription (FieldInfo.mk nm (some t) (some c) ty fmt) =
      FieldDescription.mk nm t c ty.oid 0 0 fmt.value ∧
    fieldInfoToFieldDescription (FieldInfo.mk nm none none ty fmt) =
      FieldDescription.mk nm 0 0 ty.oid 0 0 fmt.value ∧
    fieldInfoToFieldDescription (FieldInfo.mk nm (some t) none ty fmt) =
      FieldDescription.mk nm t 0 ty.oid 0 0 fmt.value ∧
    fieldInfoToFieldDescription (FieldInfo.mk nm none (some c) ty fmt) =
      FieldDescription.mk nm 0 c ty.oid 0 0 fmt.value :=
  ⟨rfl, rfl, rfl, rfl⟩

/-- C6: a `Tag` renders to "command rows" (command, one space, the row
count) when rows is present, and to exactly the command string when rows
is absent. -/
theorem C6_tag_rendering (command : String) (rows : Nat) :
    (tagToCommandComplete (Tag.new_for_execution command (some rows))).tag =
      command ++ " " ++ toString rows ∧
    (tagToCommandComplete (Tag.new_for_execution command none)).tag =
      command :=
  ⟨rfl, rfl⟩

/-- C7: the wire-code accessor returns 0 for Text and 1 for Binary. -/
theorem C7_format_code_values :
    FieldFormat.Text.value = 0 ∧ FieldFormat.Binary.value = 1 :=
  ⟨rfl, rfl⟩

/-- C8 counterexample: `DataRowEncoder::new(2)` followed immediately by
`finish` yields a row with 0 fields, not 2 — the declared column count is
only a capacity hint, not an enforced length. -/
theorem C8_counterexample_hint_not_enforced :
    (DataRowEncoder.new 2).finish = Except.ok (DataRow.mk []) ∧
    (DataRow.mk []).fields.length ≠ 2 :=
  ⟨rfl, by decide⟩

/-- C8 (amended): at `finish`, the row's field list has length equal to
the number of successful `encode_field` calls performed, whatever
column count was passed to `new`; it equals the declared column count
exactly when the caller performs that many successful encodes. -/
theorem C8_amended_length_eq_encode_count (n : Nat) (cs : List EncodeCall)
    (flds : List (Option Bytes)) (h : fieldsOf cs = Except.ok flds) :
    (encodeAll (DataRowEncoder.new n) cs).1.buffer.fields.length =
      cs.length := by
  rw [encodeAll_ok cs flds h (DataRowEncoder.new n) rfl]
  simpa [DataRowEncoder.new] using fieldsOf_length cs flds h

/-- C8 witness: two successful encodes on an encoder created with an
unrelated hint of 5 give a row of length 2. -/
theorem C8_amended_length_witness :
    fieldsOf demoCalls = Except.ok demoFields ∧
    (encodeAll (DataRowEncoder.new 5) demoCalls).1.buffer.fields.length =
      demoCalls.length :=
  ⟨rfl, C8_amended_length_eq_encode_count 5 demoCalls demoFields rfl⟩

/-- C9: `finish` never fails: for every encoder state it returns the
accumulated row wrapped in Ok. -/
theorem C9_finish_never_fails (enc : DataRowEncoder) :
    enc.finish = Except.ok enc.buffer :=
  rfl

/-- C10: `encode_field` selects the text serialization capability exactly
when the format code equals 0 and the binary capability for every other
integer format code; no format code is rejected. -/
theorem C10_format_dispatch (enc : DataRowEncoder) (v : SqlValue)
    (ty : PgType) (f : Int) :
    enc.encode_field v ty f =
      if f = 0 then enc.textEncoded v ty else enc.binaryEncoded v ty := by
  by_cases hf : f = 0
  · subst hf
    unfold DataRowEncoder.encode_field DataRowEncoder.textEncoded
      FORMAT_CODE_TEXT
    simp
  · unfold DataRowEncoder.encode_field DataRowEncoder.binaryEncoded
      FORMAT_CODE_TEXT
    rw [if_neg hf, if_neg hf]
